import Mathlib

/-!
Shallow embedding of the Doge-Agent-CA token scanner (three JavaScript server
variants) and proofs about its specification claims.

The embedding works on `List Char` to mirror JavaScript string semantics for
the ASCII text the program manipulates.  Regex matching is modelled by
leftmost scanning functions that reproduce the behaviour of the concrete
patterns used in the source (`0x` + 40 hex chars, Base58 runs of 32 to 44
chars, meta-description tags, the RISK_LEVEL first-line marker).
-/

namespace DogeCA

/-- JavaScript whitespace test for the characters that occur in this program
(space, tab, newline, carriage return). -/
def isWS (c : Char) : Bool :=
  c == ' ' || c == '\t' || c == '\n' || c == '\r'

/-- JS `String.prototype.trim` on a character list. -/
def trimL (l : List Char) : List Char :=
  ((l.dropWhile isWS).reverse.dropWhile isWS).reverse

/-- The character class `[a-fA-F0-9]` of the EVM address regex. -/
def isHexDigit (c : Char) : Bool :=
  decide ((48 ≤ c.toNat ∧ c.toNat ≤ 57) ∨ (97 ≤ c.toNat ∧ c.toNat ≤ 102) ∨
    (65 ≤ c.toNat ∧ c.toNat ≤ 70))

/-- The Base58 character class `[1-9A-HJ-NP-Za-km-z]` of the Solana regex. -/
def isBase58 (c : Char) : Bool :=
  decide ((49 ≤ c.toNat ∧ c.toNat ≤ 57) ∨ (65 ≤ c.toNat ∧ c.toNat ≤ 72) ∨
    (74 ≤ c.toNat ∧ c.toNat ≤ 78) ∨ (80 ≤ c.toNat ∧ c.toNat ≤ 90) ∨
    (97 ≤ c.toNat ∧ c.toNat ≤ 107) ∨ (109 ≤ c.toNat ∧ c.toNat ≤ 122))

/-- JS `String.prototype.endsWith` on character lists. -/
def endsWithL (l suf : List Char) : Bool :=
  l.reverse.take suf.length == suf.reverse

/-- JS `String.prototype.includes` on character lists. -/
def containsL (pat : List Char) : List Char → Bool
  | [] => pat.isPrefixOf []
  | c :: r => pat.isPrefixOf (c :: r) || containsL pat r

/-- Leftmost-match regex scanning: try the position matcher `m` at every
position of the text, left to right, returning the first success.  This is
how a JS `String.prototype.match` with a non-anchored pattern locates its
match. -/
def scanFirst (m : List Char → Option α) : List Char → Option α
  | [] => none
  | c :: rest =>
    match m (c :: rest) with
    | some a => some a
    | none => scanFirst m rest

/-- Position matcher for `/0x[a-fA-F0-9]{40}/`: at this position the text
must read `0x` followed by exactly 40 hex characters. -/
def evmAt (l : List Char) : Option (List Char) :=
  if l.take 2 = ['0', 'x'] then
    if ((l.drop 2).take 40).length = 40 ∧ ((l.drop 2).take 40).all isHexDigit then
      some ('0' :: 'x' :: (l.drop 2).take 40)
    else none
  else none

/-- First match of `/0x[a-fA-F0-9]{40}/` in the text. -/
def findEvm (l : List Char) : Option (List Char) :=
  scanFirst evmAt l

/-- Position matcher for `/[1-9A-HJ-NP-Za-km-z]{32,44}/`: the run of Base58
characters starting here must have length at least 32; the greedy match takes
at most 44 of them. -/
def base58At (l : List Char) : Option (List Char) :=
  let run := l.takeWhile isBase58
  if 32 ≤ run.length then some (run.take 44) else none

/-- First match of `/[1-9A-HJ-NP-Za-km-z]{32,44}/` in the text. -/
def findBase58 (l : List Char) : Option (List Char) :=
  scanFirst base58At l

/-- `isAllowedSuffix` from `server.mjs` / `part_000`: the address must end in
`doge` after lower-casing, or in `DUB` after upper-casing. -/
def isAllowedSuffix (addr : List Char) : Bool :=
  endsWithL (addr.map Char.toLower) ("doge".data) ||
  endsWithL (addr.map Char.toUpper) ("DUB".data)

/-- The `{ address, chainIdGuess }` record produced by the extractors. -/
structure AddrInfo where
  address : String
  chainIdGuess : String
  deriving DecidableEq

/-- The Solana branch of `extractTokenAddressWithSuffix`: first Base58 match,
kept only when the suffix rule holds. -/
def solSuffixBranch (text : List Char) : Option AddrInfo :=
  match findBase58 text with
  | some a => if isAllowedSuffix a then some ⟨String.mk a, "solana"⟩ else none
  | none => none

/-- `extractTokenAddressWithSuffix` from `server.mjs` (also `part_000`):
try the EVM pattern first; a match is returned only when the suffix rule
holds, otherwise control falls through to the Base58 pattern. -/
def extractTokenAddressWithSuffix (raw : String) : Option AddrInfo :=
  if raw.data = [] then none
  else
    match findEvm (trimL raw.data) with
    | some a =>
      if isAllowedSuffix a then some ⟨String.mk a, "ethereum"⟩
      else solSuffixBranch (trimL raw.data)
    | none => solSuffixBranch (trimL raw.data)

/-- `extractTokenAddressFromHtml` from `part_001`: same two patterns, no
suffix rule, no trimming. -/
def extractTokenAddressFromHtml (html : String) : Option AddrInfo :=
  if html.data = [] then none
  else
    match findEvm html.data with
    | some a => some ⟨String.mk a, "ethereum"⟩
    | none =>
      match findBase58 html.data with
      | some a => some ⟨String.mk a, "solana"⟩
      | none => none

/-- Position matcher for the first-line pattern `/RISK_LEVEL:\s*(.+)$/i`:
case-insensitive literal `RISK_LEVEL:` followed by at least one character
(the `\s*` and the capturing group `(.+)` together need a non-empty tail).
Returns the tail after the colon. -/
def riskTailAt (l : List Char) : Option (List Char) :=
  if (l.take 11).map Char.toLower = ("risk_level:".data) ∧ l.drop 11 ≠ [] then
    some (l.drop 11)
  else none

/-- The `{ riskLevel, text }` record returned by `generateRiskAnalysis`. -/
structure RiskBrief where
  riskLevel : String
  text : String
  deriving DecidableEq

/-- The response-parsing tail of `generateRiskAnalysis` in `server.mjs`: trim
the model output, take the first line, match `/RISK_LEVEL:\s*(.+)$/i` and
lower-case the trimmed captured group; default `"unknown"`.  The captured
group is the tail after the colon with leading whitespace removed, except
that when the tail is all whitespace the greedy `\s*` backtracks and the
group is the final whitespace character. -/
def riskBriefOfContent (content : Option String) : RiskBrief :=
  let text : List Char := match content with
    | some s => trimL s.data
    | none => []
  let fl := text.takeWhile (fun c => c != '\n')
  let rl := match scanFirst riskTailAt fl with
    | none => "unknown"
    | some tail =>
      let t := tail.dropWhile isWS
      let m1 := if t.isEmpty then tail.reverse.take 1 else t
      if m1.isEmpty then "unknown"
      else String.mk ((trimL m1).map Char.toLower)
  { riskLevel := rl, text := String.mk text }

/-- The risk level extracted from a generative-service response text. -/
def riskLevelOf (content : String) : String :=
  (riskBriefOfContent (some content)).riskLevel

/-! ## Market-data trading-pair records (Dexscreener response shape) -/

/-- The nested `liquidity` object of a pair: `{ usd }`. -/
structure Liquidity where
  usd : Option Nat
  deriving DecidableEq

/-- The nested `baseToken` object of a pair: `{ name, symbol }`. -/
structure BaseToken where
  name : Option String
  symbol : Option String
  deriving DecidableEq

/-- The nested `volume` object of a pair: `{ h24, m5, h1, h6 }`. -/
structure Volume where
  h24 : Option Nat
  m5 : Option Nat
  h1 : Option Nat
  h6 : Option Nat
  deriving DecidableEq

/-- A `{ url, label }` entry of `info.websites`. -/
structure Website where
  url : Option String
  label : Option String
  deriving DecidableEq

/-- A `{ platform, handle, url }` entry of `info.socials`. -/
structure Social where
  platform : Option String
  handle : Option String
  url : Option String
  deriving DecidableEq

/-- The nested `info` object of a pair: `{ websites, socials }`. -/
structure Info where
  websites : Option (List Website)
  socials : Option (List Social)
  deriving DecidableEq

/-- One trading-pair record of the market-data API response array. -/
structure Pair where
  baseToken : Option BaseToken
  priceUsd : Option String
  priceNative : Option String
  volume : Option Volume
  liquidity : Option Liquidity
  fdv : Option Nat
  marketCap : Option Nat
  info : Option Info
  url : Option String
  priceChange : Option String
  deriving DecidableEq

/-- JS truthiness coercion `x || null` on an optional number: `0` (and an
absent value) becomes `null`. -/
def jsOrNull : Option Nat → Option Nat
  | some 0 => none
  | some (n + 1) => some (n + 1)
  | none => none

/-- JS truthiness coercion `x || null` on an optional string: the empty
string (and an absent value) becomes `null`. -/
def jsStr : Option String → Option String
  | some s => if s = "" then none else some s
  | none => none

/-- JS `x || dflt` on an optional string. -/
def jsStrOr (v : Option String) (dflt : String) : String :=
  match v with
  | some s => if s = "" then dflt else s
  | none => dflt

/-- JS truthiness of an optional string. -/
def jsTruthy : Option String → Bool
  | some s => s != ""
  | none => false

/-- `p.liquidity?.usd || 0` — the liquidity-in-USD of a pair, 0 when the
field chain is absent. -/
def liqOf (p : Pair) : Nat :=
  match p.liquidity with
  | some l =>
    match l.usd with
    | some n => n
    | none => 0
  | none => 0

/-- `best?.liquidity?.usd || 0` — liquidity of the fold accumulator which
may still be `null`. -/
def liqD : Option Pair → Nat
  | some q => liqOf q
  | none => 0

/-- One step of the `server.mjs` / `part_000` best-pair reduce:
`liq > (best?.liquidity?.usd || 0) ? p : best`. -/
def stepA (best : Option Pair) (p : Pair) : Option Pair :=
  if liqOf p > liqD best then some p else best

/-- The `server.mjs` / `part_000` best-pair fold, seeded with `null`. -/
def bestPairA (l : List Pair) : Option Pair :=
  l.foldl stepA none

/-- One step of the `part_001` best-pair reduce: `if (!best) return p;`
then the strict liquidity comparison. -/
def stepB (best : Option Pair) (p : Pair) : Option Pair :=
  match best with
  | none => some p
  | some q => if liqOf p > liqOf q then some p else some q

/-- The `part_001` best-pair fold, seeded with `null`. -/
def bestPairB (l : List Pair) : Option Pair :=
  l.foldl stepB none

/-- Specification-side maximum liquidity of a pair list. -/
def maxL : List Pair → Nat
  | [] => 0
  | p :: r => max (liqOf p) (maxL r)

/-- Specification-side selection: the first pair attaining the maximum
liquidity. -/
def firstMax (l : List Pair) : Option Pair :=
  l.find? (fun p => liqOf p == maxL l)

/-! ## server.mjs fact extraction and report assembly -/

/-- `handle.startsWith("@") ? handle.slice(1) : handle`. -/
def stripAt (h : String) : String :=
  match h.data with
  | c :: r => if c = '@' then String.mk r else h
  | [] => h

/-- `buildTelegramUrl` from `server.mjs`: prefer an explicit `url` field,
otherwise build `https://t.me/` from the handle. -/
def buildTelegramUrl (so : Option Social) : Option String :=
  match so with
  | none => none
  | some s =>
    match jsStr s.url with
    | some u => some u
    | none =>
      match jsStr s.handle with
      | none => none
      | some h => some ("https://t.me/" ++ stripAt h)

/-- `buildXUrl` from `server.mjs`. -/
def buildXUrl (so : Option Social) : Option String :=
  match so with
  | none => none
  | some s =>
    match jsStr s.url with
    | some u => some u
    | none =>
      match jsStr s.handle with
      | none => none
      | some h => some ("https://x.com/" ++ stripAt h)

/-- The social-scanning loop of `server.mjs`: first platform containing
`telegram` and, independently, first platform containing `twitter` or `x`. -/
def scanSocials : List Social → Option Social → Option Social →
    Option Social × Option Social
  | [], tg, xs => (tg, xs)
  | s :: rest, tg, xs =>
    match s.platform with
    | none => scanSocials rest tg xs
    | some platRaw =>
      let plat := platRaw.data.map Char.toLower
      if tg.isNone && containsL ("telegram".data) plat then
        scanSocials rest (some s) xs
      else if xs.isNone &&
          (containsL ("twitter".data) plat || containsL ("x".data) plat) then
        scanSocials rest tg (some s)
      else scanSocials rest tg xs

/-- The TokenFacts aggregate assembled by the `server.mjs` handler. -/
structure TokenFactsA where
  tokenAddress : String
  chainId : String
  name : String
  symbol : String
  priceUsd : Option String
  volume24h : Option Nat
  liquidityUsd : Option Nat
  marketCap : Option Nat
  fdv : Option Nat
  holders : Option Nat
  primaryWebsite : Option String
  telegramUrl : Option String
  xUrl : Option String
  dexscreenerUrl : Option String
  description : Option String
  deriving DecidableEq

/-- Fact extraction from the selected pair in `server.mjs` (lines 224-271):
names default, numeric facts pass through `|| null`, links are resolved. -/
def extractFactsA (tokenAddress chainId : String) (p : Pair)
    (holders : Option Nat) : TokenFactsA :=
  let websites := match p.info.bind Info.websites with
    | some ws => ws
    | none => []
  let socials := match p.info.bind Info.socials with
    | some ss => ss
    | none => []
  let found := scanSocials socials none none
  { tokenAddress := tokenAddress
    chainId := chainId
    name := jsStrOr (p.baseToken.bind BaseToken.name) ("Unknown")
    symbol := jsStrOr (p.baseToken.bind BaseToken.symbol) ("?")
    priceUsd := jsStr p.priceUsd
    volume24h := jsOrNull (p.volume.bind Volume.h24)
    liquidityUsd := jsOrNull (p.liquidity.bind Liquidity.usd)
    marketCap := jsOrNull p.marketCap
    fdv := jsOrNull p.fdv
    holders := holders
    primaryWebsite := jsStr ((websites.find? (fun w => jsTruthy w.url)).bind Website.url)
    telegramUrl := buildTelegramUrl found.1
    xUrl := buildXUrl found.2
    dexscreenerUrl := jsStr p.url
    description := none }

/-- The fact-extraction step applied to the possibly-null best pair: in the
source `bestPair.baseToken` throws when `bestPair` is `null`, modelled as
`none`. -/
def extractFactsOptA (tokenAddress chainId : String) :
    Option Pair → Option Nat → Option TokenFactsA
  | none, _ => none
  | some p, h => some (extractFactsA tokenAddress chainId p h)

/-- `hJson.total || null` — the holder count of `server.mjs`, with JS
truthiness coercing a zero total to `null`. -/
def holdersFromTotal (total : Option Nat) : Option Nat :=
  jsOrNull total

/-- `${x || "?"}` display of an optional numeric fact. -/
def dispOrQNat : Option Nat → String
  | some 0 => "?"
  | some (n + 1) => toString (n + 1)
  | none => "?"

/-- The summary line list of `server.mjs` (lines 274-298), before
`.filter(Boolean)`. -/
def summaryLinesA (f : TokenFactsA) : List String :=
  [ "=== muchdogeagent CA Intel ===",
    "Contract: " ++ f.tokenAddress,
    "Detected chain: " ++ f.chainId,
    "",
    "Token Meta:",
    "- Name: " ++ f.name,
    "- Symbol: " ++ f.symbol,
    "",
    "Market Data:",
    "- Price (USD): " ++ jsStrOr f.priceUsd ("?"),
    "- Volume (24h): " ++ dispOrQNat f.volume24h,
    "- Liquidity (USD): " ++ dispOrQNat f.liquidityUsd,
    "- MarketCap: " ++ dispOrQNat f.marketCap,
    "- FDV: " ++ dispOrQNat f.fdv,
    "- Holders: " ++ dispOrQNat f.holders,
    "",
    "Links:",
    "- Website: " ++ jsStrOr f.primaryWebsite ("not provided"),
    "- Telegram: " ++ jsStrOr f.telegramUrl ("not provided"),
    "- X (Twitter): " ++ jsStrOr f.xUrl ("not provided"),
    "- Dexscreener: " ++ jsStrOr f.dexscreenerUrl ("not provided"),
    "",
    "Note: Only contract addresses ending in doge or DUB are scanned by this console." ]

/-- `summaryLines.filter(Boolean).join("\n")` — empty lines are filtered out
by JS truthiness before joining. -/
def summaryA (f : TokenFactsA) : String :=
  String.intercalate ("\n") ((summaryLinesA f).filter (fun s => s != ""))

/-- The `links` sub-object of the `server.mjs` success response. -/
structure LinksA where
  website : Option String
  telegram : Option String
  x : Option String
  dexscreener : Option String
  deriving DecidableEq

/-- The JSON envelope returned by the `server.mjs` handler on success. -/
structure ResponseBodyA where
  ok : Bool
  summary : String
  aiRisk : String
  aiRiskLevel : String
  links : LinksA
  deriving DecidableEq

/-- The Report Assembler of `server.mjs`: render the summary and wrap the
facts and risk brief into the JSON envelope (lines 274-343). -/
def assembleA (f : TokenFactsA) (b : RiskBrief) : ResponseBodyA :=
  { ok := true
    summary := summaryA f
    aiRisk := b.text
    aiRiskLevel := b.riskLevel
    links :=
      { website := f.primaryWebsite
        telegram := f.telegramUrl
        x := f.xUrl
        dexscreener := f.dexscreenerUrl } }

/-! ## URL parsing and the part_001 launchpad route -/

/-- A character allowed in a URL scheme after the first: `[A-Za-z0-9+.-]`. -/
def schemeChar (c : Char) : Bool :=
  c.isAlpha || c.isDigit || c == '+' || c == '-' || c == '.'

/-- A character that terminates the host portion of a URL authority. -/
def hostEnd (c : Char) : Bool :=
  c == '/' || c == '?' || c == '#' || c == ':' || c == '\\'

/-- The parts of a parsed URL that the validator looks at. -/
structure UrlRec where
  scheme : String
  hostname : String
  pathname : String
  deriving DecidableEq

/-- A WHATWG-style model of `new URL(rawUrl)`, covering the inputs this
server sees: a scheme (first character alphabetic) followed by `:` is
required, otherwise parsing throws; for the special schemes `http` and
`https` any run of slashes precedes a non-empty host, which is lower-cased;
other schemes carry an opaque path and an empty hostname unless `//`
introduces an authority. -/
def parseUrl (s : String) : Option UrlRec :=
  let l := trimL s.data
  let sch := l.takeWhile schemeChar
  match sch, l.drop sch.length with
  | c :: cs, ':' :: rest =>
    if c.isAlpha then
      let scheme := (c :: cs).map Char.toLower
      if scheme = ("http".data) ∨ scheme = ("https".data) then
        let afterSlashes := rest.dropWhile (fun x => x == '/')
        let host := afterSlashes.takeWhile (fun x => !hostEnd x)
        if host = [] then none
        else
          some ⟨String.mk scheme, String.mk (host.map Char.toLower),
            String.mk (afterSlashes.drop host.length)⟩
      else
        if rest.take 2 = ['/', '/'] then
          let after := rest.drop 2
          let host := after.takeWhile (fun x => !hostEnd x)
          some ⟨String.mk scheme, String.mk (host.map Char.toLower),
            String.mk (after.drop host.length)⟩
        else some ⟨String.mk scheme, "", String.mk rest⟩
    else none
  | _, _ => none

/-- `isAnoncoinUrl` from `part_001`: parse the URL (returning `false` when
the constructor throws) and check only that the hostname is `anoncoin.it`
or a subdomain of it. -/
def isAnoncoinUrl (rawUrl : String) : Bool :=
  match parseUrl rawUrl with
  | none => false
  | some u =>
    u.hostname == "anoncoin.it" || endsWithL u.hostname.data (".anoncoin.it".data)

/-- The quote class `["']` of the description regexes. -/
def isQuote (c : Char) : Bool :=
  c == '"' || c == Char.ofNat 39

/-- Case-insensitive literal matcher: consumes `pat` (compared after
lower-casing both sides) and returns the remaining text. -/
def matchCI (pat : List Char) (l : List Char) : Option (List Char) :=
  if (l.take pat.length).map Char.toLower = pat.map Char.toLower ∧
      pat.length ≤ l.length then
    some (l.drop pat.length)
  else none

/-- `\s+`: at least one whitespace character, consumed greedily. -/
def ws1 (l : List Char) : Option (List Char) :=
  let r := l.dropWhile isWS
  if r.length < l.length then some r else none

/-- A single `["']` quote. -/
def quoteP (l : List Char) : Option (List Char) :=
  match l with
  | c :: r => if isQuote c then some r else none
  | [] => none

/-- The capturing group `([^"']+)` followed by a closing `["']`. -/
def captureNonQuote (l : List Char) : Option (List Char) :=
  let cap := l.takeWhile (fun c => !isQuote c)
  if cap ≠ [] ∧ l.drop cap.length ≠ [] then some cap else none

/-- Position matcher for the meta-description regex
`/<meta\s+name=["']description["']\s+content=["']([^"']+)["']/i`. -/
def metaDescAt (l : List Char) : Option (List Char) := do
  let r1 ← matchCI ("<meta".data) l
  let r2 ← ws1 r1
  let r3 ← matchCI ("name=".data) r2
  let r4 ← quoteP r3
  let r5 ← matchCI ("description".data) r4
  let r6 ← quoteP r5
  let r7 ← ws1 r6
  let r8 ← matchCI ("content=".data) r7
  let r9 ← quoteP r8
  captureNonQuote r9

/-- Position matcher for the Open-Graph description regex
`/<meta\s+property=["']og:description["']\s+content=["']([^"']+)["']/i`. -/
def ogDescAt (l : List Char) : Option (List Char) := do
  let r1 ← matchCI ("<meta".data) l
  let r2 ← ws1 r1
  let r3 ← matchCI ("property=".data) r2
  let r4 ← quoteP r3
  let r5 ← matchCI ("og:description".data) r4
  let r6 ← quoteP r5
  let r7 ← ws1 r6
  let r8 ← matchCI ("content=".data) r7
  let r9 ← quoteP r8
  captureNonQuote r9

/-- Position matcher for the fallback `/Description[^<]{0,300}/i` match,
already combined with the `replace(/Description[:\s-]*/i, "")` and `trim`
post-processing applied to it in the source. -/
def fallbackDescAt (l : List Char) : Option (List Char) :=
  (matchCI ("Description".data) l).map (fun rest =>
    let tail := (rest.takeWhile (fun c => c != '<')).take 300
    trimL (tail.dropWhile (fun c => c == ':' || c == '-' || isWS c)))

/-- `extractDescriptionFromHtml` from `part_001`: meta description tag, then
Open-Graph description, then the bounded text run after a `Description`
label; `null` when all three fail. -/
def extractDescriptionFromHtml (html : String) : Option String :=
  if html.data = [] then none
  else
    match scanFirst metaDescAt html.data with
    | some cap => some (String.mk (trimL cap))
    | none =>
      match scanFirst ogDescAt html.data with
      | some cap => some (String.mk (trimL cap))
      | none =>
        match scanFirst fallbackDescAt html.data with
        | some s => some (String.mk s)
        | none => none

/-- The Telegram-social loop of `part_001` (lines 181-188): first social
whose platform contains `telegram`; its `handle || url || null` value, after
which the loop breaks. -/
def telegramOf : List Social → Option String
  | [] => none
  | s :: rest =>
    match s.platform with
    | none => telegramOf rest
    | some platRaw =>
      if containsL ("telegram".data) (platRaw.data.map Char.toLower) then
        match jsStr s.handle with
        | some h => some h
        | none => jsStr s.url
      else telegramOf rest

/-- Outcome of the launchpad page fetch, as seen by the handler. -/
inductive PageOutcome where
  | netErr
  | resp (ok : Bool) (html : String)
  deriving DecidableEq

/-- The parsed body of the market-data response. -/
inductive DsBody where
  | notArray
  | arr (pairs : List Pair)
  deriving DecidableEq

/-- Outcome of the market-data fetch. -/
inductive DsOutcome where
  | netErr
  | resp (ok : Bool) (body : DsBody)
  deriving DecidableEq

/-- Outcome of the holder-count fetch: network error, non-success status,
body parse error, or a parsed body carrying `total` and `data.total`. -/
inductive HolderOutcome where
  | netErr
  | badStatus
  | parseErr
  | ok (total : Option Nat) (dataTotal : Option Nat)
  deriving DecidableEq

/-- Whether the holder-count lookup failed (any of the three failure modes
that the claim enumerates). -/
def holderFailed : HolderOutcome → Bool
  | HolderOutcome.netErr => true
  | HolderOutcome.badStatus => true
  | HolderOutcome.parseErr => true
  | HolderOutcome.ok _ _ => false

/-- `hJson.total ?? hJson.data?.total ?? null` in `part_001`, with every
failure mode swallowed to `null` by the surrounding `try`/status check. -/
def holdersPart (o : HolderOutcome) : Option Nat :=
  match o with
  | HolderOutcome.ok t dt =>
    match t with
    | some n => some n
    | none => dt
  | _ => none

/-- The success-response body of the `part_001` route. -/
structure SuccessBody where
  chainId : String
  tokenAddress : String
  name : String
  symbol : String
  priceUsd : Option String
  priceNative : Option String
  volH24 : Option Nat
  volM5 : Option Nat
  volH1 : Option Nat
  volH6 : Option Nat
  priceChange : Option String
  liquidityUsd : Option Nat
  fdv : Option Nat
  marketCap : Option Nat
  holders : Option Nat
  websites : List Website
  socials : List Social
  telegram : Option String
  dexscreenerUrl : Option String
  description : Option String
  summary : String
  deriving DecidableEq

/-- The HTTP response of the `part_001` route: an error status with message,
or the 200 success body. -/
inductive ApiResponse where
  | err (status : Nat) (error : String)
  | ok (body : SuccessBody)
  deriving DecidableEq

/-- The HTTP status code of a response. -/
def ApiResponse.status : ApiResponse → Nat
  | ApiResponse.err s _ => s
  | ApiResponse.ok _ => 200

/-- The `holders` field of the response body, when the response is a
success. -/
def ApiResponse.holdersField : ApiResponse → Option (Option Nat)
  | ApiResponse.err _ _ => none
  | ApiResponse.ok b => some b.holders

/-- `${x ?? "unknown"}` display (nullish coalescing keeps zero). -/
def dispNullishNat : Option Nat → String
  | some n => toString n
  | none => "unknown"

/-- Building the success body of `part_001` from the selected pair
(lines 163-276). -/
def successBody (tokenAddress chainId : String) (description : Option String)
    (bp : Pair) (ho : HolderOutcome) : SuccessBody :=
  let name := jsStrOr (bp.baseToken.bind BaseToken.name) ("Unknown")
  let symbol := jsStrOr (bp.baseToken.bind BaseToken.symbol) ("?")
  let priceUsd := jsStr bp.priceUsd
  let priceNative := jsStr bp.priceNative
  let volume24h := jsOrNull (bp.volume.bind Volume.h24)
  let liquidityUsd := jsOrNull (bp.liquidity.bind Liquidity.usd)
  let fdv := jsOrNull bp.fdv
  let marketCap := jsOrNull bp.marketCap
  let websites := match bp.info.bind Info.websites with
    | some ws => ws
    | none => []
  let socials := match bp.info.bind Info.socials with
    | some ss => ss
    | none => []
  let telegram := telegramOf socials
  let holders := if chainId = "solana" then holdersPart ho else none
  let primaryWebsite :=
    jsStrOr ((websites.find? (fun w => jsTruthy w.url)).bind Website.url)
      ("no website listed")
  let tgLine := match telegram with
    | some t => "Intel channel (Telegram): " ++ t
    | none => "Intel channel (Telegram): none detected"
  let descSnippet := match description with
    | some d =>
      if d = "" then "No clear description found on Anoncoin page."
      else
        "Anoncoin description snippet: " ++ String.mk (d.data.take 240) ++
          (if 240 < d.data.length then "..." else "")
    | none => "No clear description found on Anoncoin page."
  let summaryLines : List String :=
    [ "Such token brief, operative.",
      "Name: " ++ name ++ " (" ++ symbol ++ ") on " ++ chainId ++ ".",
      "Contract: " ++ tokenAddress,
      "",
      "Market intel:",
      "- Price (USD): " ++ (match priceUsd with
        | some s => s
        | none => "unknown"),
      "- 24h volume: " ++ dispNullishNat volume24h,
      "- Liquidity (USD): " ++ dispNullishNat liquidityUsd,
      "- FDV: " ++ dispNullishNat fdv,
      "- Market cap: " ++ dispNullishNat marketCap,
      "- Holders (approx): " ++ dispNullishNat holders,
      "",
      "Links:",
      "- Primary website: " ++ primaryWebsite,
      "- " ++ tgLine,
      "- Dexscreener scan: " ++ jsStrOr bp.url ("not available"),
      "",
      descSnippet,
      "",
      "Such intel only, no financial advice. Very analysis, much caution." ]
  { chainId := chainId
    tokenAddress := tokenAddress
    name := name
    symbol := symbol
    priceUsd := priceUsd
    priceNative := priceNative
    volH24 := volume24h
    volM5 := bp.volume.bind Volume.m5
    volH1 := bp.volume.bind Volume.h1
    volH6 := bp.volume.bind Volume.h6
    priceChange := bp.priceChange
    liquidityUsd := liquidityUsd
    fdv := fdv
    marketCap := marketCap
    holders := holders
    websites := websites
    socials := socials
    telegram := telegram
    dexscreenerUrl := bp.url
    description := description
    summary := String.intercalate ("\n") summaryLines }

/-- The `POST /api/analyze-anoncoin` handler of `part_001` (lines 84-281):
validate and fetch the launchpad URL, extract the address and description
from the HTML, fetch market data, select the best pair, best-effort holder
count, and assemble the response.  Uncaught exceptions (network errors of
the non-guarded fetches, a `null` best pair) land in the catch-all 500. -/
def analyzeAnoncoin (url : String) (page : PageOutcome) (ds : DsOutcome)
    (ho : HolderOutcome) : ApiResponse :=
  let rawUrl := String.mk (trimL url.data)
  if rawUrl = "" then ApiResponse.err 400 ("Missing URL.")
  else if isAnoncoinUrl rawUrl = false then
    ApiResponse.err 400 ("Only anoncoin.it URLs are allowed for this scanner.")
  else
    match page with
    | PageOutcome.netErr => ApiResponse.err 500 ("Failed to analyze token.")
    | PageOutcome.resp pok html =>
      if pok = false then
        ApiResponse.err 502 ("Failed to fetch Anoncoin page.")
      else
        match extractTokenAddressFromHtml html with
        | none =>
          ApiResponse.err 404
            ("Could not detect a token contract address on this Anoncoin page.")
        | some addrInfo =>
          let tokenAddress := addrInfo.address
          let chainId :=
            if addrInfo.chainIdGuess = "" then "solana" else addrInfo.chainIdGuess
          let description := extractDescriptionFromHtml html
          match ds with
          | DsOutcome.netErr => ApiResponse.err 500 ("Failed to analyze token.")
          | DsOutcome.resp dok body =>
            if dok = false then
              ApiResponse.err 502 ("Failed to fetch DEX data for this token.")
            else
              match body with
              | DsBody.notArray =>
                ApiResponse.err 404
                  ("No DEX pairs found for this token (maybe not yet live).")
              | DsBody.arr pairs =>
                if pairs.isEmpty then
                  ApiResponse.err 404
                    ("No DEX pairs found for this token (maybe not yet live).")
                else
                  match bestPairB pairs with
                  | none => ApiResponse.err 500 ("Failed to analyze token.")
                  | some bp =>
                    ApiResponse.ok
                      (successBody tokenAddress chainId description bp ho)

/-! ## Helper lemmas -/

/-- `Char.ofNat` of a code point below the surrogate range keeps its value. -/
theorem toNat_ofNat_valid (n : Nat) (h : n < 55296) : (Char.ofNat n).toNat = n := by
  have hv : n.isValidChar := Or.inl h
  rw [Char.ofNat, dif_pos hv]
  simp [Char.ofNatAux, Char.toNat, UInt32.toNat, BitVec.ofNatLt]

/-- Lower-casing a hex digit yields a digit or a letter in `a`-`f`. -/
theorem toLower_hex_range (c : Char) (hc : isHexDigit c = true) :
    (48 ≤ (Char.toLower c).toNat ∧ (Char.toLower c).toNat ≤ 57) ∨
      (97 ≤ (Char.toLower c).toNat ∧ (Char.toLower c).toNat ≤ 102) := by
  have h2 := of_decide_eq_true hc
  unfold Char.toLower
  by_cases h : c.toNat ≥ 65 ∧ c.toNat ≤ 90
  · rw [if_pos h, toNat_ofNat_valid _ (by omega)]
    omega
  · rw [if_neg h]
    omega

/-- Upper-casing a hex digit yields a digit or a letter in `A`-`F`. -/
theorem toUpper_hex_range (c : Char) (hc : isHexDigit c = true) :
    (48 ≤ (Char.toUpper c).toNat ∧ (Char.toUpper c).toNat ≤ 57) ∨
      (65 ≤ (Char.toUpper c).toNat ∧ (Char.toUpper c).toNat ≤ 70) := by
  have h2 := of_decide_eq_true hc
  unfold Char.toUpper
  by_cases h : c.toNat ≥ 97 ∧ c.toNat ≤ 122
  · rw [if_pos h, toNat_ofNat_valid _ (by omega)]
    omega
  · rw [if_neg h]
    omega

/-- A successful scan comes from a successful position match. -/
theorem scanFirst_some {α : Type} (m : List Char → Option α) (l : List Char)
    (a : α) (h : scanFirst m l = some a) : ∃ t, m t = some a := by
  induction l with
  | nil => simp [scanFirst] at h
  | cons c rest ih =>
    unfold scanFirst at h
    cases hm : m (c :: rest) with
    | some b =>
      simp only [hm] at h
      exact ⟨c :: rest, hm.trans h⟩
    | none =>
      simp only [hm] at h
      exact ih h

/-- The shape of an EVM match: `0x` followed by 40 hex characters. -/
theorem evmAt_shape (l a : List Char) (h : evmAt l = some a) :
    ∃ hx : List Char, a = '0' :: 'x' :: hx ∧ hx.length = 40 ∧
      hx.all isHexDigit = true := by
  unfold evmAt at h
  split at h
  · split at h
    · rename_i hcond
      exact ⟨_, (Option.some_inj.mp h).symm, hcond.1, hcond.2⟩
    · exact absurd h (by simp)
  · exact absurd h (by simp)

/-- The shape of a `findEvm` result. -/
theorem findEvm_shape (l a : List Char) (h : findEvm l = some a) :
    ∃ hx : List Char, a = '0' :: 'x' :: hx ∧ hx.length = 40 ∧
      hx.all isHexDigit = true := by
  obtain ⟨t, ht⟩ := scanFirst_some evmAt l a h
  exact evmAt_shape t a ht

/-- An EVM match cannot end in `doge` after lower-casing: the character four
from the end is a lowered hex digit, never `g`. -/
theorem suffix_doge_false (hx : List Char) (hlen : hx.length = 40)
    (hall : hx.all isHexDigit = true) :
    endsWithL (List.map Char.toLower ('0' :: 'x' :: hx)) ("doge".data) = false := by
  unfold endsWithL
  rw [beq_eq_false_iff_ne]
  intro hEq
  have hlenA : (List.map Char.toLower ('0' :: 'x' :: hx)).length = 42 := by
    simp [hlen]
  have h1 : ((List.map Char.toLower ('0' :: 'x' :: hx)).reverse.take
      (("doge".data).length))[1]? = some 'g' := by
    rw [hEq]
    rfl
  rw [List.getElem?_take] at h1
  have hlen4 : ("doge".data).length = 4 := rfl
  rw [hlen4, if_pos (by norm_num)] at h1
  rw [List.getElem?_reverse (by rw [hlenA]; omega)] at h1
  rw [hlenA] at h1
  have h42 : (42 : Nat) - 1 - 1 = 40 := rfl
  rw [h42] at h1
  rw [List.getElem?_map] at h1
  have e40 : (40 : Nat) = 39 + 1 := rfl
  have e39 : (39 : Nat) = 38 + 1 := rfl
  rw [e40, List.getElem?_cons_succ, e39, List.getElem?_cons_succ] at h1
  rw [Option.map_eq_some'] at h1
  obtain ⟨c, hc1, hc2⟩ := h1
  have hmem : c ∈ hx := List.getElem?_mem hc1
  have hhex : isHexDigit c = true := (List.all_eq_true.mp hall) c hmem
  have hrange := toLower_hex_range c hhex
  have hg : (Char.toLower c).toNat = 103 := by rw [hc2]; rfl
  omega

/-- An EVM match cannot end in `DUB` after upper-casing: the character two
from the end is an uppered hex digit, never `U`. -/
theorem suffix_dub_false (hx : List Char) (hlen : hx.length = 40)
    (hall : hx.all isHexDigit = true) :
    endsWithL (List.map Char.toUpper ('0' :: 'x' :: hx)) ("DUB".data) = false := by
  unfold endsWithL
  rw [beq_eq_false_iff_ne]
  intro hEq
  have hlenA : (List.map Char.toUpper ('0' :: 'x' :: hx)).length = 42 := by
    simp [hlen]
  have h1 : ((List.map Char.toUpper ('0' :: 'x' :: hx)).reverse.take
      (("DUB".data).length))[1]? = some 'U' := by
    rw [hEq]
    rfl
  rw [List.getElem?_take] at h1
  have hlen3 : ("DUB".data).length = 3 := rfl
  rw [hlen3, if_pos (by norm_num)] at h1
  rw [List.getElem?_reverse (by rw [hlenA]; omega)] at h1
  rw [hlenA] at h1
  have h42 : (42 : Nat) - 1 - 1 = 40 := rfl
  rw [h42] at h1
  rw [List.getElem?_map] at h1
  have e40 : (40 : Nat) = 39 + 1 := rfl
  have e39 : (39 : Nat) = 38 + 1 := rfl
  rw [e40, List.getElem?_cons_succ, e39, List.getElem?_cons_succ] at h1
  rw [Option.map_eq_some'] at h1
  obtain ⟨c, hc1, hc2⟩ := h1
  have hmem : c ∈ hx := List.getElem?_mem hc1
  have hhex : isHexDigit c = true := (List.all_eq_true.mp hall) c hmem
  have hrange := toUpper_hex_range c hhex
  have hg : (Char.toUpper c).toNat = 85 := by rw [hc2]; rfl
  omega

/-- The suffix rule always fails on an EVM match. -/
theorem isAllowedSuffix_evm_false (hx : List Char) (hlen : hx.length = 40)
    (hall : hx.all isHexDigit = true) :
    isAllowedSuffix ('0' :: 'x' :: hx) = false := by
  unfold isAllowedSuffix
  rw [suffix_doge_false hx hlen hall, suffix_dub_false hx hlen hall]
  rfl

/-- A result of the Base58 branch always carries chain guess `solana`. -/
theorem solSuffixBranch_solana (t : List Char) (r : AddrInfo)
    (h : solSuffixBranch t = some r) : r.chainIdGuess = "solana" := by
  unfold solSuffixBranch at h
  cases hb : findBase58 t with
  | none =>
    simp only [hb] at h
    exact Option.noConfusion h
  | some a =>
    simp only [hb] at h
    split at h
    · rw [← Option.some_inj.mp h]
    · exact absurd h (by simp)

/-! ## Claim C9 -/

/-- C9: the suffix-enforcing Address Extractor never returns an `ethereum`
chain guess: every EVM-style match fails the suffix rule (no hex character
lower-cases to the `g`/`o` of `doge` or upper-cases to the `U` of `DUB`),
so only Base58 matches can be returned. -/
theorem c9_never_ethereum (raw : String) (r : AddrInfo)
    (h : extractTokenAddressWithSuffix raw = some r) :
    r.chainIdGuess ≠ "ethereum" := by
  unfold extractTokenAddressWithSuffix at h
  split at h
  · exact absurd h (by simp)
  · cases hev : findEvm (trimL raw.data) with
    | some a =>
      simp only [hev] at h
      split at h
      · rename_i hsuf
        obtain ⟨hx, ha, hlen, hall⟩ := findEvm_shape _ _ hev
        rw [ha, isAllowedSuffix_evm_false hx hlen hall] at hsuf
        exact absurd hsuf (by simp)
      · rw [solSuffixBranch_solana _ _ h]
        decide
    | none =>
      simp only [hev] at h
      rw [solSuffixBranch_solana _ _ h]
      decide

/-- Witness for C9 at a concrete accepted input. -/
theorem c9_witness :
    extractTokenAddressWithSuffix ("AAAAAAAAAAAAAAAAAAAAAAAAAAAAdoge") =
      some { address := "AAAAAAAAAAAAAAAAAAAAAAAAAAAAdoge", chainIdGuess := "solana" } ∧
    ({ address := "AAAAAAAAAAAAAAAAAAAAAAAAAAAAdoge",
        chainIdGuess := "solana" } : AddrInfo).chainIdGuess ≠ "ethereum" :=
  ⟨by decide,
    c9_never_ethereum ("AAAAAAAAAAAAAAAAAAAAAAAAAAAAdoge")
      { address := "AAAAAAAAAAAAAAAAAAAAAAAAAAAAdoge", chainIdGuess := "solana" }
      (by decide)⟩

/-! ## Claim C3 -/

/-- C3 counterexample: this input contains a valid EVM-style address whose
suffix is disallowed, yet the extractor does not return `null` — it falls
back to the Base58 match found earlier in the string. -/
theorem c3_counterexample :
    findEvm (trimL ("AAAAAAAAAAAAAAAAAAAAAAAAAAAAdoge 0x1111111111111111111111111111111111111111").data) =
      some ("0x1111111111111111111111111111111111111111".data) ∧
    isAllowedSuffix ("0x1111111111111111111111111111111111111111".data) = false ∧
    extractTokenAddressWithSuffix
        ("AAAAAAAAAAAAAAAAAAAAAAAAAAAAdoge 0x1111111111111111111111111111111111111111") =
      some { address := "AAAAAAAAAAAAAAAAAAAAAAAAAAAAdoge", chainIdGuess := "solana" } := by
  refine ⟨by decide, by decide, by decide⟩

/-- C3 amended: when the EVM match fails the suffix rule the extractor does
not stop — it falls through to the Base58 branch, and the result is either
`null` or a Base58 match with chain guess `solana` (never the discarded EVM
match). -/
theorem c3_amended (raw : String) (a : List Char)
    (h1 : findEvm (trimL raw.data) = some a)
    (h2 : isAllowedSuffix a = false) :
    extractTokenAddressWithSuffix raw = solSuffixBranch (trimL raw.data) ∧
    (extractTokenAddressWithSuffix raw = none ∨
      ∃ b : List Char, extractTokenAddressWithSuffix raw =
        some { address := String.mk b, chainIdGuess := "solana" }) := by
  have hraw : raw.data ≠ [] := by
    intro he
    rw [he] at h1
    exact Option.noConfusion h1
  have hmain : extractTokenAddressWithSuffix raw = solSuffixBranch (trimL raw.data) := by
    unfold extractTokenAddressWithSuffix
    rw [if_neg hraw]
    simp only [h1, h2]
    rfl
  refine ⟨hmain, ?_⟩
  rw [hmain]
  unfold solSuffixBranch
  cases hb : findBase58 (trimL raw.data) with
  | none =>
    simp only [hb]
    exact Or.inl trivial
  | some b =>
    simp only [hb]
    by_cases hs : isAllowedSuffix b = true
    · exact Or.inr ⟨b, by rw [if_pos hs]⟩
    · rw [if_neg hs]
      exact Or.inl rfl

/-- Witness for C3 amended at a bare disallowed-suffix EVM address, where
the fall-through Base58 branch also fails and the result is `null`. -/
theorem c3_witness :
    extractTokenAddressWithSuffix ("0x1111111111111111111111111111111111111111") =
      solSuffixBranch (trimL ("0x1111111111111111111111111111111111111111").data) ∧
    (extractTokenAddressWithSuffix ("0x1111111111111111111111111111111111111111") = none ∨
      ∃ b : List Char,
        extractTokenAddressWithSuffix ("0x1111111111111111111111111111111111111111") =
          some { address := String.mk b, chainIdGuess := "solana" }) :=
  c3_amended ("0x1111111111111111111111111111111111111111")
    ("0x1111111111111111111111111111111111111111".data) (by decide) (by decide)

/-! ## Claim C6 -/

/-- Base58 characters are not whitespace. -/
theorem isWS_false_of_base58 (c : Char) (h : isBase58 c = true) :
    isWS c = false := by
  have h2 := of_decide_eq_true h
  unfold isWS
  have hsp : c ≠ ' ' := by
    intro he
    rw [he] at h2
    exact absurd h2 (by decide)
  have hta : c ≠ '\t' := by
    intro he
    rw [he] at h2
    exact absurd h2 (by decide)
  have hnl : c ≠ '\n' := by
    intro he
    rw [he] at h2
    exact absurd h2 (by decide)
  have hcr : c ≠ '\r' := by
    intro he
    rw [he] at h2
    exact absurd h2 (by decide)
  rw [beq_eq_false_iff_ne.mpr hsp, beq_eq_false_iff_ne.mpr hta,
    beq_eq_false_iff_ne.mpr hnl, beq_eq_false_iff_ne.mpr hcr]
  rfl

/-- `dropWhile isWS` keeps a list with no whitespace. -/
theorem dropWhile_isWS_of_all (l : List Char)
    (h : ∀ c ∈ l, isWS c = false) : l.dropWhile isWS = l := by
  cases l with
  | nil => rfl
  | cons c r =>
    rw [List.dropWhile_cons, if_neg]
    rw [h c (List.mem_cons_self c r)]
    simp

/-- Trimming a Base58-only list is the identity. -/
theorem trimL_of_base58 (l : List Char) (hall : l.all isBase58 = true) :
    trimL l = l := by
  have hws : ∀ c ∈ l, isWS c = false := fun c hc =>
    isWS_false_of_base58 c ((List.all_eq_true.mp hall) c hc)
  unfold trimL
  rw [dropWhile_isWS_of_all l hws]
  rw [dropWhile_isWS_of_all l.reverse (fun c hc => hws c (List.mem_reverse.mp hc))]
  exact List.reverse_reverse l

/-- No EVM pattern can start at a Base58 character (Base58 excludes `0`). -/
theorem evmAt_none_of_base58 (c : Char) (rest : List Char)
    (hc : isBase58 c = true) : evmAt (c :: rest) = none := by
  unfold evmAt
  rw [if_neg]
  intro heq
  have hc0 : c = '0' := by
    have : (c :: rest).take 2 = c :: rest.take 1 := rfl
    rw [this] at heq
    exact (List.cons_eq_cons.mp heq).1
  rw [hc0] at hc
  exact absurd hc (by decide)

/-- `findEvm` finds nothing in a Base58-only list. -/
theorem findEvm_none_of_base58 (l : List Char) (hall : l.all isBase58 = true) :
    findEvm l = none := by
  induction l with
  | nil => rfl
  | cons c r ih =>
    have hc : isBase58 c = true := (List.all_eq_true.mp hall) c (List.mem_cons_self c r)
    have hr : r.all isBase58 = true :=
      List.all_eq_true.mpr (fun x hx =>
        (List.all_eq_true.mp hall) x (List.mem_cons_of_mem c hx))
    unfold findEvm scanFirst
    rw [evmAt_none_of_base58 c r hc]
    exact ih hr

/-- `findBase58` finds nothing when the whole Base58-only text is shorter
than 32 characters. -/
theorem findBase58_none_of_short (l : List Char) (hall : l.all isBase58 = true)
    (hlen : l.length < 32) : findBase58 l = none := by
  induction l with
  | nil => rfl
  | cons c r ih =>
    have hr : r.all isBase58 = true :=
      List.all_eq_true.mpr (fun x hx =>
        (List.all_eq_true.mp hall) x (List.mem_cons_of_mem c hx))
    have hself : (c :: r).takeWhile isBase58 = c :: r :=
      List.takeWhile_eq_self_iff.mpr (List.all_eq_true.mp hall)
    unfold findBase58 scanFirst
    have hba : base58At (c :: r) = none := by
      unfold base58At
      rw [hself, if_neg]
      omega
    rw [hba]
    exact ih hr (by simp at hlen ⊢; omega)

/-- On a Base58-only text of length at least 32, the greedy leftmost match
is the first `min 44` characters. -/
theorem findBase58_of_long (l : List Char) (hall : l.all isBase58 = true)
    (hlen : 32 ≤ l.length) : findBase58 l = some (l.take 44) := by
  cases l with
  | nil => simp at hlen
  | cons c r =>
    have hself : (c :: r).takeWhile isBase58 = c :: r :=
      List.takeWhile_eq_self_iff.mpr (List.all_eq_true.mp hall)
    unfold findBase58 scanFirst
    have hba : base58At (c :: r) = some ((c :: r).take 44) := by
      unfold base58At
      rw [hself, if_pos hlen]
    rw [hba]

/-- C6 counterexample: a bare 45-character Base58 string is matched through
its first 44 characters, and when that prefix ends in an allowed suffix the
extractor succeeds instead of returning `null`. -/
theorem c6_counterexample :
    ("AAAAAAAAAAAAAAAAAAAAAAAAAAAAAAAAAAAAAAAAdogeZ".data.length = 45) ∧
    ("AAAAAAAAAAAAAAAAAAAAAAAAAAAAAAAAAAAAAAAAdogeZ".data.all isBase58 = true) ∧
    extractTokenAddressWithSuffix ("AAAAAAAAAAAAAAAAAAAAAAAAAAAAAAAAAAAAAAAAdogeZ") =
      some { address := "AAAAAAAAAAAAAAAAAAAAAAAAAAAAAAAAAAAAAAAAdoge", chainIdGuess := "solana" } := by
  refine ⟨by decide, by decide, by decide⟩

/-- C6 amended: a bare Base58 string of length 31 yields `null`; one of
length 45 is matched through its first 44 characters, so the extractor
returns that truncated address when it passes the suffix rule and `null`
only otherwise. -/
theorem c6_amended (l : List Char) (hall : l.all isBase58 = true) :
    (l.length = 31 → extractTokenAddressWithSuffix (String.mk l) = none) ∧
    (l.length = 45 → extractTokenAddressWithSuffix (String.mk l) =
      (if isAllowedSuffix (l.take 44) then
        some { address := String.mk (l.take 44), chainIdGuess := "solana" }
      else none)) := by
  have hdata : (String.mk l).data = l := rfl
  constructor
  · intro h31
    have hne : (String.mk l).data ≠ [] := by
      rw [hdata]
      intro he
      rw [he] at h31
      simp at h31
    unfold extractTokenAddressWithSuffix
    rw [if_neg hne, hdata, trimL_of_base58 l hall]
    rw [findEvm_none_of_base58 l hall]
    unfold solSuffixBranch
    rw [findBase58_none_of_short l hall (by omega)]
  · intro h45
    have hne : (String.mk l).data ≠ [] := by
      rw [hdata]
      intro he
      rw [he] at h45
      simp at h45
    unfold extractTokenAddressWithSuffix
    rw [if_neg hne, hdata, trimL_of_base58 l hall]
    rw [findEvm_none_of_base58 l hall]
    unfold solSuffixBranch
    rw [findBase58_of_long l hall (by omega)]

/-- Witness for C6 amended: a 31-character Base58 input yields `null` and a
45-character one is decided by its 44-character prefix. -/
theorem c6_witness :
    extractTokenAddressWithSuffix
      (String.mk ("AAAAAAAAAAAAAAAAAAAAAAAAAAAdoge".data)) = none ∧
    extractTokenAddressWithSuffix
        (String.mk ("AAAAAAAAAAAAAAAAAAAAAAAAAAAAAAAAAAAAAAAAdogeZ".data)) =
      (if isAllowedSuffix ("AAAAAAAAAAAAAAAAAAAAAAAAAAAAAAAAAAAAAAAAdogeZ".data.take 44) then
        some { address := String.mk ("AAAAAAAAAAAAAAAAAAAAAAAAAAAAAAAAAAAAAAAAdogeZ".data.take 44), chainIdGuess := "solana" }
      else none) :=
  ⟨(c6_amended ("AAAAAAAAAAAAAAAAAAAAAAAAAAAdoge".data) (by decide)).1 (by decide),
    (c6_amended ("AAAAAAAAAAAAAAAAAAAAAAAAAAAAAAAAAAAAAAAAdogeZ".data) (by decide)).2
      (by decide)⟩

/-! ## Claims C1 and C5: the best-pair folds -/

/-- Characterisation of the null-seeded strict fold: starting from any
accumulator, the fold returns the first pair whose liquidity attains the
maximum of the list whenever that maximum strictly exceeds the
accumulator liquidity, and the accumulator unchanged otherwise. -/
theorem foldA_char : ∀ (l : List Pair) (b : Option Pair),
    l.foldl stepA b =
      (if liqD b < maxL l then l.find? (fun p => liqOf p == maxL l) else b)
  | [], b => by
    unfold maxL
    rw [if_neg (by omega)]
    rfl
  | p :: rest, b => by
    rw [List.foldl_cons, foldA_char rest (stepA b p)]
    have hmax : maxL (p :: rest) = max (liqOf p) (maxL rest) := rfl
    rw [hmax]
    by_cases h1 : liqOf p > liqD b
    · have hsa : stepA b p = some p := by
        unfold stepA
        rw [if_pos h1]
      rw [show liqD (stepA b p) = liqOf p by rw [hsa]; rfl, hsa]
      by_cases h2 : liqOf p < maxL rest
      · rw [if_pos h2, Nat.max_eq_right (Nat.le_of_lt h2), if_pos (by omega)]
        rw [List.find?_cons_of_neg _ (by rw [beq_iff_eq]; omega)]
      · rw [if_neg h2, Nat.max_eq_left (by omega), if_pos (by omega)]
        rw [List.find?_cons_of_pos _ (by rw [beq_iff_eq])]
    · have hsa : stepA b p = b := by
        unfold stepA
        rw [if_neg h1]
      rw [hsa]
      by_cases h2 : liqD b < maxL rest
      · rw [if_pos h2, Nat.max_eq_right (by omega), if_pos h2]
        rw [List.find?_cons_of_neg _ (by rw [beq_iff_eq]; omega)]
      · rw [if_neg h2,
          if_neg (Nat.not_lt.mpr (Nat.max_le.mpr ⟨by omega, by omega⟩))]

/-- Every liquidity in the list is bounded by the maximum. -/
theorem liqOf_le_maxL (l : List Pair) (p : Pair) (h : p ∈ l) :
    liqOf p ≤ maxL l := by
  induction l with
  | nil => exact absurd h (List.not_mem_nil p)
  | cons q rest ih =>
    unfold maxL
    rcases List.mem_cons.mp h with h1 | h1
    · rw [h1]
      omega
    · have := ih h1
      omega

/-- A non-empty list attains its maximum liquidity. -/
theorem maxL_attained (l : List Pair) (h : l ≠ []) :
    ∃ p ∈ l, liqOf p = maxL l := by
  induction l with
  | nil => exact absurd rfl h
  | cons q rest ih =>
    cases rest with
    | nil =>
      refine ⟨q, List.mem_cons_self q [], ?_⟩
      unfold maxL maxL
      omega
    | cons r rest2 =>
      obtain ⟨p, hp, hpl⟩ := ih (by simp)
      by_cases hq : maxL (r :: rest2) ≤ liqOf q
      · refine ⟨q, List.mem_cons_self q _, ?_⟩
        unfold maxL
        omega
      · refine ⟨p, List.mem_cons_of_mem q hp, ?_⟩
        unfold maxL
        omega

/-- The first-seen trading pair with `liquidity.usd = 0`, used by the
counterexamples. -/
def pairZero : Pair :=
  { baseToken := none, priceUsd := none, priceNative := none, volume := none,
    liquidity := some { usd := some 0 }, fdv := none, marketCap := none,
    info := none, url := none, priceChange := none }

/-- A pair with positive liquidity, used by the witnesses. -/
def pairFive : Pair :=
  { pairZero with liquidity := some { usd := some 5 } }

/-- C1 counterexample: on a non-empty pair array whose only pair has
liquidity 0, the `server.mjs` fold selects no pair at all (`null`), and the
subsequent fact extraction fails (the source would throw and answer 500). -/
theorem c1_counterexample :
    ([pairZero] : List Pair) ≠ [] ∧
    bestPairA [pairZero] = none ∧
    extractFactsOptA ("addr") ("solana") (bestPairA [pairZero]) none = none := by
  refine ⟨by decide, by decide, by decide⟩

/-- C1 amended: whenever some pair of the array has positive
liquidity-or-0, the fold selects the first pair attaining the maximum
liquidity (so ties keep the first-seen pair) and fact extraction succeeds;
with all liquidities 0 the fold instead yields `null`. -/
theorem c1_amended (tokenAddress chainId : String) (l : List Pair)
    (hres : Option Nat) (h : ∃ p ∈ l, 0 < liqOf p) :
    ∃ p : Pair, bestPairA l = some p ∧ p ∈ l ∧ liqOf p = maxL l ∧
      bestPairA l = firstMax l ∧
      extractFactsOptA tokenAddress chainId (bestPairA l) hres =
        some (extractFactsA tokenAddress chainId p hres) := by
  obtain ⟨q, hq, hql⟩ := h
  have hml : 0 < maxL l := Nat.lt_of_lt_of_le hql (liqOf_le_maxL l q hq)
  have hbest : bestPairA l = firstMax l := by
    unfold bestPairA firstMax
    rw [foldA_char l none]
    rw [if_pos]
    exact hml
  obtain ⟨p0, hp0, hp0l⟩ := maxL_attained l (List.ne_nil_of_mem hq)
  cases hf : l.find? (fun p => liqOf p == maxL l) with
  | none =>
    have := List.find?_eq_none.mp hf p0 hp0
    rw [beq_iff_eq] at this
    exact absurd hp0l this
  | some p =>
    have hmem : p ∈ l := List.mem_of_find?_eq_some hf
    have hps : (liqOf p == maxL l) = true :=
      @List.find?_some Pair (fun q => liqOf q == maxL l) p l hf
    have hpl : liqOf p = maxL l := beq_iff_eq.mp hps
    have hbp : bestPairA l = some p := by
      rw [hbest]
      unfold firstMax
      exact hf
    refine ⟨p, hbp, hmem, hpl, hbest, ?_⟩
    rw [hbp]
    rfl

/-- Witness for C1 amended on a concrete two-pair array. -/
theorem c1_witness :
    (∃ p ∈ [pairZero, pairFive], 0 < liqOf p) ∧
    ∃ p : Pair, bestPairA [pairZero, pairFive] = some p ∧
      p ∈ [pairZero, pairFive] ∧ liqOf p = maxL [pairZero, pairFive] ∧
      bestPairA [pairZero, pairFive] = firstMax [pairZero, pairFive] ∧
      extractFactsOptA ("addr") ("solana") (bestPairA [pairZero, pairFive]) none =
        some (extractFactsA ("addr") ("solana") p none) :=
  ⟨by decide, c1_amended ("addr") ("solana") [pairZero, pairFive] none (by decide)⟩

/-- From a non-null accumulator the two fold steps agree. -/
theorem foldB_some (l : List Pair) : ∀ q : Pair,
    l.foldl stepB (some q) = l.foldl stepA (some q) := by
  induction l with
  | nil => intro q; rfl
  | cons p rest ih =>
    intro q
    rw [List.foldl_cons, List.foldl_cons]
    have hstep : stepB (some q) p = stepA (some q) p := by
      unfold stepB stepA
      rfl
    rw [hstep]
    unfold stepA
    by_cases h : liqOf p > liqD (some q)
    · rw [if_pos h]
      exact ih p
    · rw [if_neg h]
      exact ih q

/-- C5 counterexample: on the singleton zero-liquidity array the two folds
disagree — the direct-address variant selects no pair, the URL variant
selects the pair. -/
theorem c5_counterexample :
    bestPairA [pairZero] = none ∧ bestPairB [pairZero] = some pairZero ∧
    bestPairA [pairZero] ≠ bestPairB [pairZero] := by
  refine ⟨by decide, by decide, by decide⟩

/-- C5 amended: the two best-pair folds agree on every array containing at
least one pair of positive liquidity-or-0; they can differ only when every
liquidity is 0. -/
theorem c5_amended (l : List Pair) (h : ∃ p ∈ l, 0 < liqOf p) :
    bestPairA l = bestPairB l := by
  obtain ⟨q, hq, hql⟩ := h
  cases l with
  | nil => exact absurd hq (List.not_mem_nil q)
  | cons p rest =>
    unfold bestPairA bestPairB
    rw [List.foldl_cons, List.foldl_cons]
    have hB : stepB none p = some p := rfl
    rw [hB, foldB_some rest p]
    by_cases h0 : 0 < liqOf p
    · have hA : stepA none p = some p := by
        unfold stepA
        rw [show liqD (none : Option Pair) = 0 from rfl, if_pos h0]
      rw [hA]
    · have hA : stepA none p = none := by
        unfold stepA
        rw [show liqD (none : Option Pair) = 0 from rfl, if_neg h0]
      rw [hA]
      have hqr : q ∈ rest := by
        rcases List.mem_cons.mp hq with h1 | h1
        · rw [h1] at hql
          omega
        · exact h1
      have hmr : 0 < maxL rest :=
        Nat.lt_of_lt_of_le hql (liqOf_le_maxL rest q hqr)
      rw [foldA_char rest none, foldA_char rest (some p)]
      have hlp : liqOf p = 0 := by omega
      rw [show liqD (none : Option Pair) = 0 from rfl,
        show liqD (some p) = liqOf p from rfl, hlp]
      rw [if_pos hmr, if_pos hmr]

/-- Witness for C5 amended on a concrete array. -/
theorem c5_witness :
    (∃ p ∈ [pairZero, pairFive], 0 < liqOf p) ∧
    bestPairA [pairZero, pairFive] = bestPairB [pairZero, pairFive] :=
  ⟨by decide, c5_amended [pairZero, pairFive] (by decide)⟩

/-! ## Claim C4 -/

/-- C4 counterexample: the parsed risk level is whatever string follows the
marker, here `banana`, which is outside the four-value enumeration. -/
theorem c4_counterexample :
    riskLevelOf ("RISK_LEVEL: Banana") = "banana" ∧
    "banana" ∉ (["low", "medium", "high", "unknown"] : List String) := by
  refine ⟨by decide, by decide⟩

/-- C4 amended: the risk level defaults to `unknown` when the first line
carries no `RISK_LEVEL:` marker, and otherwise is the lower-cased trimmed
tail after the marker — an arbitrary string that lies in the four-value
enumeration only when the service follows the prompt format. -/
theorem c4_amended :
    (∀ content : String,
      scanFirst riskTailAt
          ((trimL content.data).takeWhile (fun c => c != '\n')) = none →
        riskLevelOf content = "unknown") ∧
    (∀ lvl : String, lvl ∈ (["Low", "Medium", "High", "Unknown"] : List String) →
      riskLevelOf ("RISK_LEVEL: " ++ lvl) ∈
        (["low", "medium", "high", "unknown"] : List String)) := by
  constructor
  · intro content hnone
    unfold riskLevelOf riskBriefOfContent
    simp only [hnone]
  · intro lvl hl
    fin_cases hl <;> decide

/-- Witness for C4 amended: a marker-free response defaults to `unknown`
and a format-following response lands in the enumeration. -/
theorem c4_witness :
    riskLevelOf ("Key red flags only") = "unknown" ∧
    riskLevelOf ("RISK_LEVEL: Low") ∈
      (["low", "medium", "high", "unknown"] : List String) :=
  ⟨c4_amended.1 ("Key red flags only") (by decide),
    c4_amended.2 ("Low") (by decide)⟩

/-! ## Claim C2 -/

/-- C2 counterexample: the validator accepts an insecure-scheme URL with a
two-segment path, so acceptance is not restricted to secure HTTP with one
path segment. -/
theorem c2_counterexample :
    isAnoncoinUrl ("http://anoncoin.it/a/b") = true ∧
    parseUrl ("http://anoncoin.it/a/b") =
      some { scheme := "http", hostname := "anoncoin.it", pathname := "/a/b" } := by
  refine ⟨by decide, by decide⟩

/-- C2 amended: the validator checks only that the input parses as a URL
whose hostname is the launchpad domain or a subdomain; scheme and path are
unrestricted.  The bare input `anoncoin.it/FOOdoge` is still rejected with
400 — not because of its path shape, but because URL parsing throws on a
missing scheme. -/
theorem c2_amended :
    (∀ (page : PageOutcome) (ds : DsOutcome) (ho : HolderOutcome),
      (analyzeAnoncoin ("anoncoin.it/FOOdoge") page ds ho).status = 400) ∧
    parseUrl ("anoncoin.it/FOOdoge") = none ∧
    isAnoncoinUrl ("https://anoncoin.it/a/b") = true := by
  refine ⟨fun page ds ho => rfl, by decide, by decide⟩

/-- Witness for C2 amended at concrete fetch outcomes. -/
theorem c2_witness :
    (analyzeAnoncoin ("anoncoin.it/FOOdoge") PageOutcome.netErr DsOutcome.netErr
      HolderOutcome.netErr).status = 400 :=
  c2_amended.1 PageOutcome.netErr DsOutcome.netErr HolderOutcome.netErr

/-! ## Claim C8 -/

/-- C8: report assembly is a pure function of the token facts and the risk
brief — equal inputs render byte-identical summaries and envelopes. -/
theorem c8_render_deterministic (f g : TokenFactsA) (b c : RiskBrief)
    (hf : f = g) (hb : b = c) : assembleA f b = assembleA g c := by
  rw [hf, hb]

/-- Witness for C8 on concrete facts and brief. -/
theorem c8_witness :
    assembleA (extractFactsA ("addr") ("solana") pairFive none)
        (riskBriefOfContent none) =
      assembleA (extractFactsA ("addr") ("solana") pairFive none)
        (riskBriefOfContent none) :=
  c8_render_deterministic _ _ _ _ rfl rfl

/-! ## Claim C10 -/

/-- C10: numeric facts whose upstream value is exactly 0 (24h volume,
liquidity, market cap, FDV, holder total) are coerced to `null` by the `||`
truthiness idiom, and the report renders the `?` placeholder for them, so a
genuine zero is indistinguishable from an absent value. -/
theorem c10_zero_coerced (tokenAddress chainId : String) (p : Pair)
    (total : Option Nat)
    (h1 : p.volume.bind Volume.h24 = some 0)
    (h2 : p.liquidity.bind Liquidity.usd = some 0)
    (h3 : p.fdv = some 0)
    (h4 : p.marketCap = some 0)
    (h5 : total = some 0) :
    (extractFactsA tokenAddress chainId p (holdersFromTotal total)).volume24h = none ∧
    (extractFactsA tokenAddress chainId p (holdersFromTotal total)).liquidityUsd = none ∧
    (extractFactsA tokenAddress chainId p (holdersFromTotal total)).fdv = none ∧
    (extractFactsA tokenAddress chainId p (holdersFromTotal total)).marketCap = none ∧
    (extractFactsA tokenAddress chainId p (holdersFromTotal total)).holders = none ∧
    ("- Volume (24h): ?") ∈
      (summaryLinesA (extractFactsA tokenAddress chainId p (holdersFromTotal total))).filter
        (fun s => s != "") ∧
    ("- Liquidity (USD): ?") ∈
      (summaryLinesA (extractFactsA tokenAddress chainId p (holdersFromTotal total))).filter
        (fun s => s != "") ∧
    ("- MarketCap: ?") ∈
      (summaryLinesA (extractFactsA tokenAddress chainId p (holdersFromTotal total))).filter
        (fun s => s != "") ∧
    ("- FDV: ?") ∈
      (summaryLinesA (extractFactsA tokenAddress chainId p (holdersFromTotal total))).filter
        (fun s => s != "") ∧
    ("- Holders: ?") ∈
      (summaryLinesA (extractFactsA tokenAddress chainId p (holdersFromTotal total))).filter
        (fun s => s != "") := by
  have hv : (extractFactsA tokenAddress chainId p (holdersFromTotal total)).volume24h = none := by
    simp [extractFactsA, h1, jsOrNull]
  have hliq : (extractFactsA tokenAddress chainId p (holdersFromTotal total)).liquidityUsd = none := by
    simp [extractFactsA, h2, jsOrNull]
  have hfdv : (extractFactsA tokenAddress chainId p (holdersFromTotal total)).fdv = none := by
    simp [extractFactsA, h3, jsOrNull]
  have hmc : (extractFactsA tokenAddress chainId p (holdersFromTotal total)).marketCap = none := by
    simp [extractFactsA, h4, jsOrNull]
  have hh : (extractFactsA tokenAddress chainId p (holdersFromTotal total)).holders = none := by
    simp [extractFactsA, h5, holdersFromTotal, jsOrNull]
  refine ⟨hv, hliq, hfdv, hmc, hh, ?_, ?_, ?_, ?_, ?_⟩
  · refine List.mem_filter.mpr ⟨?_, by decide⟩
    have hline : ("- Volume (24h): " ++
        dispOrQNat (extractFactsA tokenAddress chainId p (holdersFromTotal total)).volume24h) =
        ("- Volume (24h): ?") := by
      rw [hv]
      decide
    rw [← hline]
    simp [summaryLinesA]
  · refine List.mem_filter.mpr ⟨?_, by decide⟩
    have hline : ("- Liquidity (USD): " ++
        dispOrQNat (extractFactsA tokenAddress chainId p (holdersFromTotal total)).liquidityUsd) =
        ("- Liquidity (USD): ?") := by
      rw [hliq]
      decide
    rw [← hline]
    simp [summaryLinesA]
  · refine List.mem_filter.mpr ⟨?_, by decide⟩
    have hline : ("- MarketCap: " ++
        dispOrQNat (extractFactsA tokenAddress chainId p (holdersFromTotal total)).marketCap) =
        ("- MarketCap: ?") := by
      rw [hmc]
      decide
    rw [← hline]
    simp [summaryLinesA]
  · refine List.mem_filter.mpr ⟨?_, by decide⟩
    have hline : ("- FDV: " ++
        dispOrQNat (extractFactsA tokenAddress chainId p (holdersFromTotal total)).fdv) =
        ("- FDV: ?") := by
      rw [hfdv]
      decide
    rw [← hline]
    simp [summaryLinesA]
  · refine List.mem_filter.mpr ⟨?_, by decide⟩
    have hline : ("- Holders: " ++
        dispOrQNat (extractFactsA tokenAddress chainId p (holdersFromTotal total)).holders) =
        ("- Holders: ?") := by
      rw [hh]
      decide
    rw [← hline]
    simp [summaryLinesA]

/-- A pair whose volume, liquidity, market cap and FDV are all exactly 0,
used by the C10 witness. -/
def pairAllZero : Pair :=
  { pairZero with
    volume := some { h24 := some 0, m5 := none, h1 := none, h6 := none },
    fdv := some 0,
    marketCap := some 0 }

/-- Witness for C10 on a concrete all-zero pair. -/
theorem c10_witness :
    (extractFactsA ("addr") ("solana") pairAllZero (holdersFromTotal (some 0))).volume24h = none ∧
    (extractFactsA ("addr") ("solana") pairAllZero (holdersFromTotal (some 0))).liquidityUsd = none ∧
    (extractFactsA ("addr") ("solana") pairAllZero (holdersFromTotal (some 0))).fdv = none ∧
    (extractFactsA ("addr") ("solana") pairAllZero (holdersFromTotal (some 0))).marketCap = none ∧
    (extractFactsA ("addr") ("solana") pairAllZero (holdersFromTotal (some 0))).holders = none ∧
    ("- Volume (24h): ?") ∈
      (summaryLinesA (extractFactsA ("addr") ("solana") pairAllZero (holdersFromTotal (some 0)))).filter
        (fun s => s != "") ∧
    ("- Liquidity (USD): ?") ∈
      (summaryLinesA (extractFactsA ("addr") ("solana") pairAllZero (holdersFromTotal (some 0)))).filter
        (fun s => s != "") ∧
    ("- MarketCap: ?") ∈
      (summaryLinesA (extractFactsA ("addr") ("solana") pairAllZero (holdersFromTotal (some 0)))).filter
        (fun s => s != "") ∧
    ("- FDV: ?") ∈
      (summaryLinesA (extractFactsA ("addr") ("solana") pairAllZero (holdersFromTotal (some 0)))).filter
        (fun s => s != "") ∧
    ("- Holders: ?") ∈
      (summaryLinesA (extractFactsA ("addr") ("solana") pairAllZero (holdersFromTotal (some 0)))).filter
        (fun s => s != "") :=
  c10_zero_coerced ("addr") ("solana") pairAllZero (some 0) rfl rfl rfl rfl rfl

/-! ## Claim C7 -/

/-- A fold of `stepB` from a non-null accumulator stays non-null. -/
theorem foldB_isSome : ∀ (l : List Pair) (q : Pair),
    ∃ z, l.foldl stepB (some q) = some z
  | [], q => ⟨q, rfl⟩
  | p :: rest, q => by
    rw [List.foldl_cons]
    simp only [stepB]
    by_cases h : liqOf p > liqOf q
    · rw [if_pos h]
      exact foldB_isSome rest p
    · rw [if_neg h]
      exact foldB_isSome rest q

/-- A failed holder lookup always produces `null` holders. -/
theorem holdersPart_of_failure (ho : HolderOutcome)
    (h : holderFailed ho = true) : holdersPart ho = none := by
  cases ho with
  | netErr => rfl
  | badStatus => rfl
  | parseErr => rfl
  | ok t dt => simp [holderFailed] at h

/-- C7: when the launchpad URL is accepted, the page fetch succeeds with an
address-bearing body, the market-data fetch returns a non-empty pair array,
and the chain guess is `solana`, a failing holder-count lookup (network
error, bad status, or parse error) does not fail the pipeline: the response
is still a 200 success and its `holders` field is `null`. -/
theorem c7_holders_nonfatal (u html : String) (ai : AddrInfo)
    (pairs : List Pair) (ho : HolderOutcome)
    (h1 : isAnoncoinUrl (String.mk (trimL u.data)) = true)
    (h2 : extractTokenAddressFromHtml html = some ai)
    (h3 : ai.chainIdGuess = "solana")
    (h4 : pairs ≠ [])
    (h5 : holderFailed ho = true) :
    (analyzeAnoncoin u (PageOutcome.resp true html)
        (DsOutcome.resp true (DsBody.arr pairs)) ho).status = 200 ∧
    (analyzeAnoncoin u (PageOutcome.resp true html)
        (DsOutcome.resp true (DsBody.arr pairs)) ho).holdersField = some none := by
  have hne : String.mk (trimL u.data) ≠ "" := by
    intro he
    rw [he] at h1
    exact absurd h1 (by decide)
  have hol : holdersPart ho = none := holdersPart_of_failure ho h5
  obtain ⟨hp, hrest, rfl⟩ : ∃ hp hrest, pairs = hp :: hrest := by
    cases pairs with
    | nil => exact absurd rfl h4
    | cons a b => exact ⟨a, b, rfl⟩
  obtain ⟨bp, hbp⟩ : ∃ z, bestPairB (hp :: hrest) = some z := by
    unfold bestPairB
    rw [List.foldl_cons]
    exact foldB_isSome hrest hp
  have hchain : (if ai.chainIdGuess = "" then "solana" else ai.chainIdGuess) =
      "solana" := by
    rw [h3]
    decide
  have key : analyzeAnoncoin u (PageOutcome.resp true html)
      (DsOutcome.resp true (DsBody.arr (hp :: hrest))) ho =
      ApiResponse.ok (successBody ai.address "solana"
        (extractDescriptionFromHtml html) bp ho) := by
    unfold analyzeAnoncoin
    rw [if_neg hne, h1]
    simp only [h2, hbp, hchain, Bool.true_eq_false, if_false, if_neg,
      List.isEmpty_cons]
    rfl
  rw [key]
  refine ⟨rfl, ?_⟩
  show some (successBody ai.address ("solana")
    (extractDescriptionFromHtml html) bp ho).holders = some none
  simp only [successBody]
  rw [if_pos trivial, hol]

/-- Witness for C7 at a concrete request whose holder lookup throws. -/
theorem c7_witness :
    (analyzeAnoncoin ("https://anoncoin.it/x")
        (PageOutcome.resp true ("AAAAAAAAAAAAAAAAAAAAAAAAAAAAAAAA"))
        (DsOutcome.resp true (DsBody.arr [pairFive]))
        HolderOutcome.netErr).status = 200 ∧
    (analyzeAnoncoin ("https://anoncoin.it/x")
        (PageOutcome.resp true ("AAAAAAAAAAAAAAAAAAAAAAAAAAAAAAAA"))
        (DsOutcome.resp true (DsBody.arr [pairFive]))
        HolderOutcome.netErr).holdersField = some none :=
  c7_holders_nonfatal ("https://anoncoin.it/x")
    ("AAAAAAAAAAAAAAAAAAAAAAAAAAAAAAAA")
    { address := "AAAAAAAAAAAAAAAAAAAAAAAAAAAAAAAA", chainIdGuess := "solana" }
    [pairFive] HolderOutcome.netErr
    (by decide) (by decide) rfl (by decide) rfl

end DogeCA
